import Mathlib

/-!
# Verification of the `claude-receipts` thermal-printer subsystem

Shallow embedding of `src/core/thermal-printer.ts` (the ESC/POS command
builder, the transport selector, and the three transports) together with
the formatting helpers of `src/utils/formatting.ts`, plus the model-name
normalization of the HTML renderer for the cross-renderer comparison.

Strings are modelled as Lean `String` (lists of characters); byte buffers
as `List Nat`; JavaScript `number` token counts as `Nat` and monetary
amounts as `Rat`; optional TypeScript fields as `Option`.
-/

set_option maxRecDepth 4000

namespace ClaudeReceipts

/-! ## Generic list/string helpers (models of the JS string primitives used) -/

/-- `hasPre p l` : `p` is an initial segment of `l` (model of `String.startsWith`
on character or byte lists). -/
def hasPre {α : Type} [BEq α] : List α → List α → Bool
  | [], _ => true
  | _ :: _, [] => false
  | a :: p, b :: l => a == b && hasPre p l

/-- `subList p l` : `p` occurs contiguously inside `l` (model of
`String.includes` / "the decoded text contains ..."). -/
def subList {α : Type} [BEq α] : List α → List α → Bool
  | p, [] => hasPre p []
  | p, l@(_ :: t) => hasPre p l || subList p t

/-- Model of JS `s.startsWith(p)`. -/
def strStarts (p s : String) : Bool := hasPre p.data s.data

/-- Model of JS `s.includes(p)` (substring containment). -/
def strContains (s p : String) : Bool := subList p.data s.data

/-- A string of `n` spaces (model of `" ".repeat(n)`). -/
def spaces (n : Nat) : String := String.mk (List.replicate n ' ')

/-- Model of JS `s.split(c)` for a single-character separator. -/
def splitOnChar (c : Char) : List Char → List (List Char)
  | [] => [[]]
  | a :: t =>
    let r := splitOnChar c t
    if a == c then [] :: r
    else match r with
      | [] => [[a]]
      | h :: t' => (a :: h) :: t'

/-- Model of JS `arr.join(sep)` restricted to `sep = "\n"`. -/
def joinNL : List String → String
  | [] => ""
  | [x] => x
  | x :: xs => x ++ "\n" ++ joinNL xs

/-- Model of JS `arr.join(", ")`. -/
def joinComma : List String → String
  | [] => ""
  | [x] => x
  | x :: xs => x ++ ", " ++ joinComma xs

/-- Base-10 digit accumulation (model of `parseInt(s, 10)` on an all-digit
string, as produced by the URL parser's port field). -/
def natFromDigits (l : List Char) : Nat :=
  l.foldl (fun acc c => acc * 10 + (c.toNat - 48)) 0

/-- Lowercase hexadecimal rendering of a natural number (model of JS
`n.toString(16)` for non-negative integers). -/
def natToHex (n : Nat) : String := String.mk (Nat.toDigits 16 n)

/-- UTF-8 encoding of one character (model of `Buffer.from(s, "utf-8")`,
per character). -/
def utf8Char (c : Char) : List Nat :=
  let n := c.toNat
  if n < 0x80 then [n]
  else if n < 0x800 then [0xC0 ||| (n >>> 6), 0x80 ||| (n &&& 0x3F)]
  else if n < 0x10000 then
    [0xE0 ||| (n >>> 12), 0x80 ||| ((n >>> 6) &&& 0x3F), 0x80 ||| (n &&& 0x3F)]
  else
    [0xF0 ||| (n >>> 18), 0x80 ||| ((n >>> 12) &&& 0x3F),
     0x80 ||| ((n >>> 6) &&& 0x3F), 0x80 ||| (n &&& 0x3F)]

/-- UTF-8 bytes of a string (model of `Buffer.from(s, "utf-8")`). -/
def strBytes (s : String) : List Nat := s.data.foldr (fun c acc => utf8Char c ++ acc) []

/-! ## Formatting helpers (`src/utils/formatting.ts`) -/

/-- Two-digit zero-padded rendering of `k < 100`. -/
def pad2 (k : Nat) : String := if k < 10 then "0" ++ toString k else toString k

/-- `formatCurrency`: `` `$${amount.toFixed(2)}` ``.  Monetary amounts are
modelled as rationals; `toFixed(2)` picks the integer `n` with `n / 100`
closest to the amount, ties resolved to the larger `n` (the ECMA-262
rule), i.e. `⌊100·a + 1/2⌋` hundredths for a non-negative amount `a = num/den`,
computed here directly on the numerator and denominator. -/
def formatCurrency (amount : Rat) : String :=
  if amount.num < 0 then
    let cents := (200 * amount.num.natAbs + amount.den - 1) / (2 * amount.den)
    "-$" ++ toString (cents / 100) ++ "." ++ pad2 (cents % 100)
  else
    let cents := (200 * amount.num.toNat + amount.den) / (2 * amount.den)
    "$" ++ toString (cents / 100) ++ "." ++ pad2 (cents % 100)

/-- Insert a comma after every three characters of a reversed digit list. -/
def commaGroupRev : List Char → List Char
  | a :: b :: c :: d :: rest => a :: b :: c :: ',' :: commaGroupRev (d :: rest)
  | l => l

/-- `formatNumber`: `num.toLocaleString("en-US")` for natural numbers —
decimal digits with thousands separators. -/
def formatNumber (num : Nat) : String :=
  String.mk (commaGroupRev (Nat.toDigits 10 num).reverse).reverse

/-- Modelled from the spec: `formatDateTime` delegates to the external
date-fns library ("ISO timestamp + optional timezone name" is rendered by
an out-of-scope collaborator).  We model it as an arbitrary concrete pure
function of the epoch time and optional timezone; no claim depends on its
output text. -/
def formatDateTime (epochMs : Nat) (timezone : Option String) : String :=
  "date:" ++ toString epochMs ++ (match timezone with
    | some z => " " ++ z
    | none => "")

/-! ## Data model (`ReceiptData` and its components) -/

/-- `ModelBreakdown` (src/types/ccusage.ts). -/
structure ModelBreakdown where
  modelName : String
  inputTokens : Nat
  outputTokens : Nat
  cacheCreationTokens : Option Nat
  cacheReadTokens : Option Nat
  cost : Rat
deriving DecidableEq, Repr

/-- `CcusageSession` (src/types/ccusage.ts), the fields the renderer reads. -/
structure CcusageSession where
  sessionId : String
  inputTokens : Nat
  outputTokens : Nat
  cacheCreationTokens : Option Nat
  cacheReadTokens : Option Nat
  totalTokens : Nat
  totalCost : Rat
  modelsUsed : Option (List String)
  modelBreakdowns : Option (List ModelBreakdown)
deriving DecidableEq, Repr

/-- `ParsedTranscript` (src/types/transcript.ts); `Date`s as epoch ms. -/
structure ParsedTranscript where
  sessionSlug : String
  firstPrompt : String
  startTime : Nat
  endTime : Nat
  userMessageCount : Nat
  assistantMessageCount : Nat
  totalMessages : Nat
deriving DecidableEq, Repr

/-- `ReceiptConfig` (src/types/config.ts). -/
structure ReceiptConfig where
  version : String
  location : Option String
  timezone : Option String
  printer : Option String
deriving DecidableEq, Repr

/-- `ReceiptData` (src/core/receipt-generator.ts). -/
structure ReceiptData where
  sessionData : CcusageSession
  transcriptData : ParsedTranscript
  location : String
  config : ReceiptConfig
deriving DecidableEq, Repr

/-! ## Model-name normalization (`ThermalPrinterRenderer.getModelName` and
`HtmlRenderer.getModelName`) -/

/-- Model of `model.replace(` regex `-\d{8}$` `, "")`: strip a trailing `-YYYYMMDD` suffix.
The regex matches exactly when the final nine characters are a dash
followed by eight decimal digits. -/
def stripDate (s : String) : String :=
  let cs := s.data
  let n := cs.length
  if 9 ≤ n ∧ (cs.drop (n - 9)).head? = some '-' ∧ ((cs.drop (n - 9)).drop 1).all Char.isDigit
  then String.mk (cs.take (n - 9))
  else s

/-- The fixed canonical-id → marketing-name table of
`ThermalPrinterRenderer.getModelName`. -/
def thermalModelMap : List (String × String) :=
  [("claude-sonnet-4-5", "Claude Sonnet 4.5"),
   ("claude-opus-4-5", "Claude Opus 4.5"),
   ("claude-3-5-sonnet", "Claude 3.5 Sonnet"),
   ("claude-3-opus", "Claude 3 Opus"),
   ("claude-3-haiku", "Claude 3 Haiku")]

/-- The table of `HtmlRenderer.getModelName` (same entries plus
`claude-haiku-4-5`). -/
def htmlModelMap : List (String × String) :=
  thermalModelMap ++ [("claude-haiku-4-5", "Claude Haiku 4.5")]

/-- `ThermalPrinterRenderer.getModelName`: strip the date suffix, look the
result up in the fixed table, fall back to the original identifier
(`modelMap[cleaned] || model`; all table values are non-empty strings, so
the JS falsy-fallback coincides with lookup failure). -/
def getModelName (model : String) : String :=
  match List.lookup (stripDate model) thermalModelMap with
  | some v => v
  | none => model

/-- `HtmlRenderer.getModelName` (src/core/thermal-printer.ts HTML renderer). -/
def htmlGetModelName (model : String) : String :=
  match List.lookup (stripDate model) htmlModelMap with
  | some v => v
  | none => model

/-- `ThermalPrinterRenderer.getMainModel`. -/
def getMainModel (sessionData : CcusageSession) : String :=
  match sessionData.modelBreakdowns with
  | some (m :: _) => getModelName m.modelName
  | _ =>
    match sessionData.modelsUsed with
    | some (m :: _) => getModelName m
    | _ => "Claude"

/-! ## ESC/POS command builder (`EscPosBuilder` + `buildReceipt`) -/

/-- Receipt line width: `WIDTH = 40` (TM-T88V 80mm paper, Font A minus margin). -/
def WIDTH : Nat := 40

/-- `EscPosBuilder.leftRight` text (before the trailing LF): compute
`gap = WIDTH - left.length - right.length`; if `gap < 1` emit
`left + " " + right`, else `left + gap spaces + right`. -/
def leftRightText (left right : String) : String :=
  let gap : Int := (WIDTH : Int) - left.length - right.length
  if gap < 1 then left ++ " " ++ right
  else left ++ spaces gap.toNat ++ right

/-- One builder-method invocation of `buildReceipt`'s body.  The source
mutates an `EscPosBuilder`; we record the sequence of method calls and
interpret each call into its bytes with `bytesOfOp` below. -/
inductive EscOp where
  | init
  | leftMargin (dots : Nat)
  | logo
  | lineOp (s : String)
  | bold (isOn : Bool)
  | alignOp (mode : Nat)
  | drawLine (char : Char)
  | leftRight (left right : String)
  | qrCode (data : String) (cellSize : Nat)
  | partialCut
deriving DecidableEq, Repr

/-- ESC byte. -/
def ESC : Nat := 0x1b
/-- GS byte. -/
def GS : Nat := 0x1d
/-- LF byte. -/
def LF : Nat := 0x0a
/-- CP437 full block. -/
def BLK : Nat := 0xdb
/-- CP437 upper half block. -/
def UPH : Nat := 0xdf
/-- CP437 left half block. -/
def LFH : Nat := 0xdd
/-- CP437 right half block. -/
def RHF : Nat := 0xde

/-- The bytes emitted by each `EscPosBuilder` method
(src/core/thermal-printer.ts lines 34–191). -/
def bytesOfOp : EscOp → List Nat
  | .init => [ESC, 0x40]
  | .leftMargin dots => [GS, 0x4c, dots % 256, (dots / 256) % 256]
  | .logo =>
    [ESC, 0x61, 1] ++
    [RHF, BLK, BLK, BLK, BLK, BLK, BLK, BLK, BLK, BLK, BLK, LFH, LF] ++
    [RHF, BLK, BLK, 0x20, BLK, BLK, BLK, BLK, 0x20, BLK, BLK, LFH, LF] ++
    [RHF, BLK, BLK, BLK, BLK, BLK, BLK, BLK, BLK, BLK, BLK, BLK, BLK, BLK, BLK, LFH, LF] ++
    [RHF, BLK, BLK, BLK, BLK, BLK, BLK, BLK, BLK, BLK, BLK, LFH, LF] ++
    [UPH, 0x20, UPH, 0x20, 0x20, UPH, 0x20, UPH, LF]
  | .lineOp s => strBytes s ++ [LF]
  | .bold isOn => [ESC, 0x45, if isOn then 1 else 0]
  | .alignOp n => [ESC, 0x61, n]
  | .drawLine c => strBytes (String.mk (List.replicate WIDTH c)) ++ [LF]
  | .leftRight l r => strBytes (leftRightText l r) ++ [LF]
  | .qrCode data cellSize =>
    let d := strBytes data
    let storeLen := d.length + 3
    [GS, 0x28, 0x6b, 4, 0, 0x31, 0x41, 50, 0] ++
    [GS, 0x28, 0x6b, 3, 0, 0x31, 0x43, cellSize] ++
    [GS, 0x28, 0x6b, 3, 0, 0x31, 0x45, 49] ++
    [GS, 0x28, 0x6b, storeLen % 256, (storeLen / 256) % 256, 0x31, 0x50, 0x30] ++
    d ++
    [GS, 0x28, 0x6b, 3, 0, 0x31, 0x51, 0x30]
  | .partialCut => [GS, 0x56, 0x42, 3]

/-- The fixed referral URL. -/
def REPO_URL : String := "https://github.com/chrishutchinson/claude-receipts"

/-- The conditional cache-write row:
`if (model.cacheCreationTokens && model.cacheCreationTokens > 0)`. -/
def cacheWriteOps (m : ModelBreakdown) : List EscOp :=
  match m.cacheCreationTokens with
  | some n => if 0 < n then [.leftRight "  Cache write" (formatNumber n)] else []
  | none => []

/-- The conditional cache-read row:
`if (model.cacheReadTokens && model.cacheReadTokens > 0)`. -/
def cacheReadOps (m : ModelBreakdown) : List EscOp :=
  match m.cacheReadTokens with
  | some n => if 0 < n then [.leftRight "  Cache read" (formatNumber n)] else []
  | none => []

/-- Builder calls of one iteration of the model-breakdown loop
(src/core/thermal-printer.ts lines 250–275). -/
def recOps (m : ModelBreakdown) : List EscOp :=
  [.bold true,
   .leftRight (getModelName m.modelName) (formatCurrency m.cost),
   .bold false,
   .drawLine '-',
   .leftRight "  Input tokens" (formatNumber m.inputTokens),
   .leftRight "  Output tokens" (formatNumber m.outputTokens)] ++
  cacheWriteOps m ++
  cacheReadOps m ++
  [.lineOp "", .drawLine '=']

/-- The model-breakdown region: the `if (modelBreakdowns && length > 0)`
guard around the `for..of` loop. -/
def modelSegment : Option (List ModelBreakdown) → List EscOp
  | some l => if 0 < l.length then (l.map recOps).flatten else []
  | none => []

/-- The full sequence of builder calls of
`ThermalPrinterRenderer.buildReceipt` (lines 225–305).  The `shareUrl`
parameter is accepted and, as in the source, never read. -/
def receiptOps (d : ReceiptData) (_shareUrl : Option String) : List EscOp :=
  [.init,
   .leftMargin 12,
   .logo,
   .lineOp "",
   .alignOp 1,
   .lineOp ("Location: " ++ d.location),
   .lineOp ("Session: " ++ d.transcriptData.sessionSlug),
   .lineOp (formatDateTime d.transcriptData.endTime d.config.timezone),
   .lineOp "",
   .alignOp 0,
   .drawLine '='] ++
  modelSegment d.sessionData.modelBreakdowns ++
  [.bold true,
   .leftRight "TOTAL" (formatCurrency d.sessionData.totalCost),
   .bold false,
   .drawLine '=',
   .lineOp "",
   .alignOp 0,
   .lineOp ("CASHIER: " ++ getMainModel d.sessionData),
   .lineOp "",
   .alignOp 1,
   .lineOp "Thank you for building!",
   .lineOp "",
   .alignOp 1,
   .lineOp "Print your own Claude receipts:",
   .qrCode REPO_URL 4,
   .lineOp "github.com/chrishutchinson",
   .lineOp "/claude-receipts",
   .lineOp "",
   .partialCut]

/-- Concatenate the bytes of a call sequence (`EscPosBuilder.build`:
`Buffer.concat(this.chunks)`). -/
def opsBytes : List EscOp → List Nat
  | [] => []
  | o :: t => bytesOfOp o ++ opsBytes t

/-- `ThermalPrinterRenderer.buildReceipt`: the finished `PrintJob` buffer. -/
def buildReceipt (d : ReceiptData) (shareUrl : Option String) : List Nat :=
  opsBytes (receiptOps d shareUrl)

/-- The ambient runtime environment available to the printing code: the
clock (`Date.now()`).  `sendViaCups` reads it for the temp-file name;
`buildReceipt` never reads it. -/
structure World where
  now : Nat
deriving DecidableEq, Repr

/-- `buildReceipt` as run inside the runtime environment: the source body
performs no reads of the clock, randomness, or retained state, so the
translation ignores the world. -/
def buildReceiptInWorld (_w : World) (d : ReceiptData) (shareUrl : Option String) : List Nat :=
  buildReceipt d shareUrl

/-! ## Row-extraction views of a builder-call sequence (used to state the
structural claims about `buildReceipt`) -/

/-- All two-column rows (`leftRight` calls) of a call sequence, in order. -/
def twoColRows : List EscOp → List (String × String)
  | [] => []
  | .leftRight l r :: rest => (l, r) :: twoColRows rest
  | _ :: rest => twoColRows rest

/-- All bold header rows: a `bold(true)` immediately followed by a
two-column row. -/
def boldHeaderRows : List EscOp → List (String × String)
  | [] => []
  | .bold true :: .leftRight l r :: rest => (l, r) :: boldHeaderRows rest
  | .bold true :: rest => boldHeaderRows rest
  | _ :: rest => boldHeaderRows rest

/-- The two-column rows one model record must produce, written from the
spec: a header row pairing the normalized display name with the formatted
cost, then one row per non-zero token category (zero-valued cache
categories produce no row). -/
def specRecordRows (m : ModelBreakdown) : List (String × String) :=
  [(getModelName m.modelName, formatCurrency m.cost),
   ("  Input tokens", formatNumber m.inputTokens),
   ("  Output tokens", formatNumber m.outputTokens)] ++
  (if 0 < m.cacheCreationTokens.getD 0 then
    [("  Cache write", formatNumber (m.cacheCreationTokens.getD 0))] else []) ++
  (if 0 < m.cacheReadTokens.getD 0 then
    [("  Cache read", formatNumber (m.cacheReadTokens.getD 0))] else [])

/-! ## Transport selector (`printReceipt`) and TCP address parsing -/

/-- The chosen transport for one print call. -/
inductive Transport where
  | tcp (host : String) (port : Nat)
  | usb (spec : String)
  | cups (name : String)
deriving DecidableEq, Repr

/-- The authority component of a `tcp://...` address: the characters after
`tcp://` and before any `/` (model of the WHATWG `URL` host parsing for
the opaque `tcp:` scheme, restricted to `host[:port]` shapes without
userinfo or IPv6 brackets). -/
def tcpAuth (address : String) : List Char :=
  (address.data.drop 6).takeWhile (fun c => c ≠ '/')

/-- `url.hostname` of a `tcp://host[:port]` address. -/
def tcpHostOf (address : String) : String :=
  String.mk ((tcpAuth address).takeWhile (fun c => c ≠ ':'))

/-- `parseInt(url.port || "9100", 10)` of a `tcp://host[:port]` address:
the digits after the colon, defaulting to 9100 when there is no port. -/
def tcpPortOf (address : String) : Nat :=
  let p := ((tcpAuth address).dropWhile (fun c => c ≠ ':')).drop 1
  if p = [] then 9100 else natFromDigits p

/-- `ThermalPrinterRenderer.printReceipt` dispatch (lines 203–220):
`tcp://` prefix → TCP (with the parsed host/port), `"usb"` or `usb:`
prefix → USB, anything else → the CUPS spooler with the whole string as
destination name. -/
def printDispatch (printerInterface : String) : Transport :=
  if strStarts "tcp://" printerInterface then
    .tcp (tcpHostOf printerInterface) (tcpPortOf printerInterface)
  else if printerInterface == "usb" || strStarts "usb:" printerInterface then
    .usb printerInterface
  else
    .cups printerInterface

/-! ## USB transport (`sendViaUsb`, device-selection and error-report phase) -/

/-- Default Epson USB vendor ID. -/
def EPSON_VENDOR_ID : Nat := 0x04b8
/-- Default TM-T88V product ID. -/
def TM_T88V_PRODUCT_ID : Nat := 0x0202

/-- The value of one hexadecimal digit character, `none` otherwise. -/
def hexVal (c : Char) : Option Nat :=
  if c.isDigit then some (c.toNat - 48)
  else if 97 ≤ c.toNat ∧ c.toNat ≤ 102 then some (c.toNat - 87)
  else if 65 ≤ c.toNat ∧ c.toNat ≤ 70 then some (c.toNat - 55)
  else none

/-- Model of JS `parseInt(s, 16)`: an optional `0x`/`0X` prefix followed
by the longest run of hexadecimal digits; `none` models `NaN` (no parsable
digits).  Leading whitespace and signs, which never occur in `usb:VID:PID`
destination strings, are not modelled. -/
def parseHexJs (s : String) : Option Nat :=
  let body :=
    match s.data with
    | '0' :: 'x' :: rest => rest
    | '0' :: 'X' :: rest => rest
    | l => l
  let digits := body.takeWhile (fun c => (hexVal c).isSome)
  if digits = [] then none
  else some (digits.foldl (fun acc c => acc * 16 + (hexVal c).getD 0) 0)

/-- The vendor/product IDs `sendViaUsb` looks for (lines 337–347): the
defaults, overridden by `parseInt(parts[1], 16)` / `parseInt(parts[2], 16)`
when the spec has the form `usb:VID:PID`; `none` models a `NaN` id. -/
def usbIdsOf (spec : String) : Option Nat × Option Nat :=
  let vid := some EPSON_VENDOR_ID
  let pid := some TM_T88V_PRODUCT_ID
  if strStarts "usb:" spec then
    let parts := splitOnChar ':' spec.data
    if 3 ≤ parts.length then
      (parseHexJs (String.mk (parts.get? 1 |>.getD [])),
       parseHexJs (String.mk (parts.get? 2 |>.getD [])))
    else (vid, pid)
  else (vid, pid)

/-- `findByIds(vid, pid)` over a registry of visible (vendor, product)
pairs; a `NaN` id (`none`) compares unequal to every device id, as in JS. -/
def usbFindByIds (vid pid : Option Nat) (devs : List (Nat × Nat)) : Option (Nat × Nat) :=
  devs.find? (fun d => vid == some d.1 && pid == some d.2)

/-- `v.toString(16)` where `v` may be `NaN`. -/
def toHexJs : Option Nat → String
  | none => "NaN"
  | some n => natToHex n

/-- The diagnostic line of one visible device: `` `  ${vendor}:${product}` ``. -/
def devLine (d : Nat × Nat) : String := "  " ++ natToHex d.1 ++ ":" ++ natToHex d.2

/-- The `DeviceNotFound` error text (lines 349–364): the requested id pair
plus the first (at most) 10 visible devices, or `(none)` when the summary
is empty. -/
def usbNotFoundMsg (vid pid : Option Nat) (devs : List (Nat × Nat)) : String :=
  let summary := joinNL ((devs.take 10).map devLine)
  "USB printer not found (looking for " ++ toHexJs vid ++ ":" ++ toHexJs pid ++ ").\n" ++
  "Visible USB devices:\n" ++ (if summary = "" then "  (none)" else summary)

/-- The device-selection phase of `sendViaUsb`: locate the device matching
the ids parsed from the destination, or fail with the diagnostic error. -/
def usbLocate (spec : String) (devs : List (Nat × Nat)) : Except String (Nat × Nat) :=
  let ids := usbIdsOf spec
  match usbFindByIds ids.1 ids.2 devs with
  | some d => .ok d
  | none => .error (usbNotFoundMsg ids.1 ids.2 devs)

/-! ## Spooler transport (`sendViaCups`) -/

/-- Outcomes of the external commands `sendViaCups` runs. -/
structure CupsEnv where
  /-- `lpstat -p "<name>"` succeeds (the destination is configured). -/
  statusOk : Bool
  /-- stdout of `lpstat -p` (the alternative-listing query); `none` when
  that command itself fails. -/
  listOut : Option String
  /-- `lp -d "<name>" -o raw <file>` succeeds. -/
  lpOk : Bool
deriving DecidableEq, Repr

/-- Filesystem events of one `sendViaCups` call. -/
inductive FsEv where
  | createTmp (name : String)
  | submitJob
  | deleteTmp (name : String)
deriving DecidableEq, Repr

/-- Parse the alternative-destination names from `lpstat -p` output:
lines starting with `"printer "`, second space-separated token. -/
def parsePrinterNames (out : String) : List String :=
  ((splitOnChar '\n' out.data).map String.mk).filter (fun l => strStarts "printer " l)
    |>.map (fun l => String.mk ((splitOnChar ' ' l.data).get? 1 |>.getD []))

/-- `sendViaCups` (lines 404–449): verify the destination via
`lpstat -p <name>`; on failure, best-effort list alternatives and throw
without touching the filesystem; on success, write the buffer to a
timestamp-named temp file, submit it raw via `lp`, and delete the temp
file in a `finally` whose own errors are swallowed.  Returns the call
result and the filesystem-event trace. -/
def sendViaCups (w : World) (env : CupsEnv) (printerName : String) :
    Except String Unit × List FsEv :=
  if env.statusOk then
    let tmpFile := "claude-receipt-" ++ toString w.now ++ ".bin"
    ((if env.lpOk then .ok () else
        .error ("lp failed for \"" ++ printerName ++ "\"")),
     [.createTmp tmpFile, .submitJob, .deleteTmp tmpFile])
  else
    let available :=
      match env.listOut with
      | none => ""
      | some out =>
        let names := parsePrinterNames out
        if 0 < names.length then "\nAvailable printers: " ++ joinComma names else ""
    (.error ("Printer \"" ++ printerName ++ "\" not found in CUPS." ++
      (if available = "" then
        "\nNo printers are configured. Add one via System Settings > Printers & Scanners."
       else available)),
     [])

/-! ## Concrete example data (the spec's end-to-end fixture) -/

/-- The spec's end-to-end fixture record: input=100, output=50,
cacheRead=0, cost=1.23. -/
def exRecord : ModelBreakdown :=
  { modelName := "claude-sonnet-4-5-20250101"
    inputTokens := 100
    outputTokens := 50
    cacheCreationTokens := none
    cacheReadTokens := some 0
    cost := Rat.divInt 123 100 }

/-- A receipt with the single fixture record. -/
def exReceipt : ReceiptData :=
  { sessionData :=
      { sessionId := "abc"
        inputTokens := 100
        outputTokens := 50
        cacheCreationTokens := none
        cacheReadTokens := some 0
        totalTokens := 150
        totalCost := Rat.divInt 123 100
        modelsUsed := some ["claude-sonnet-4-5-20250101"]
        modelBreakdowns := some [exRecord] }
    transcriptData :=
      { sessionSlug := "demo-session"
        firstPrompt := "hello"
        startTime := 0
        endTime := 1000
        userMessageCount := 1
        assistantMessageCount := 1
        totalMessages := 2 }
    location := "Home"
    config := { version := "1.0.0", location := none, timezone := none, printer := none } }

/-! ## Helper lemmas: strings, prefixes and substring occurrence -/

theorem strData_append (a b : String) : (a ++ b).data = a.data ++ b.data := rfl

theorem strLength_append (a b : String) : (a ++ b).length = a.length + b.length := by
  show (a ++ b).data.length = a.data.length + b.data.length
  rw [strData_append, List.length_append]

theorem spaces_length (n : Nat) : (spaces n).length = n := by
  show (List.replicate n ' ').length = n
  exact List.length_replicate n ' '

theorem strNe_empty (s : String) (h : s.data ≠ []) : s ≠ "" := by
  intro he
  rw [he] at h
  exact h rfl

theorem hasPre_same_append {α : Type} [BEq α] [LawfulBEq α] (a p l : List α) :
    hasPre (a ++ p) (a ++ l) = hasPre p l := by
  induction a with
  | nil => rfl
  | cons x t ih => simp [hasPre, ih]

theorem hasPre_refl {α : Type} [BEq α] [LawfulBEq α] (p : List α) : hasPre p p = true := by
  induction p with
  | nil => rfl
  | cons x t ih => simp [hasPre, ih]

theorem hasPre_self {α : Type} [BEq α] [LawfulBEq α] (p r : List α) :
    hasPre p (p ++ r) = true := by
  induction p with
  | nil => rfl
  | cons x t ih => simp [hasPre, ih]

theorem subList_of_hasPre {α : Type} [BEq α] {p l : List α} (h : hasPre p l = true) :
    subList p l = true := by
  cases l with
  | nil => exact h
  | cons a t => simp [subList, h]

theorem subList_cons_of {α : Type} [BEq α] {p t : List α} (a : α) (h : subList p t = true) :
    subList p (a :: t) = true := by
  simp [subList, h]

theorem subList_append_left {α : Type} [BEq α] {p r : List α} (x : List α)
    (h : subList p r = true) : subList p (x ++ r) = true := by
  induction x with
  | nil => exact h
  | cons a t ih => exact subList_cons_of a ih

/-! ## Helper lemmas: association-list lookup -/

theorem lookup_val_mem {l : List (String × String)} {k v : String}
    (h : List.lookup k l = some v) : v ∈ l.map Prod.snd := by
  induction l with
  | nil => simp [List.lookup] at h
  | cons p t ih =>
    rcases p with ⟨pk, pv⟩
    by_cases hk : k == pk
    · simp [List.lookup, hk] at h
      simp [h]
    · simp [List.lookup, hk] at h
      simp [ih h]

theorem lookup_append (k : String) (l₁ l₂ : List (String × String)) :
    List.lookup k (l₁ ++ l₂) =
      (match List.lookup k l₁ with
        | some v => some v
        | none => List.lookup k l₂) := by
  induction l₁ with
  | nil => simp [List.lookup]
  | cons p t ih =>
    rcases p with ⟨pk, pv⟩
    by_cases hk : k == pk
    · simp [List.lookup, hk]
    · simp [List.lookup, hk, ih]

/-! ## C3 / C8 : model-name normalization -/

/-- C3.  `getModelName` is idempotent; the raw id
`"claude-sonnet-4-5-20250101"` maps to `"Claude Sonnet 4.5"`; the unknown
id `"foo-bar"` passes through unchanged; and every identifier whose
date-stripped form misses the table passes through unchanged. -/
theorem getModelName_idem_table :
    (∀ x, getModelName (getModelName x) = getModelName x) ∧
    getModelName "claude-sonnet-4-5-20250101" = "Claude Sonnet 4.5" ∧
    getModelName "foo-bar" = "foo-bar" ∧
    (∀ x, List.lookup (stripDate x) thermalModelMap = none → getModelName x = x) := by
  have key : ∀ y, getModelName y = y ∨ getModelName y ∈ thermalModelMap.map Prod.snd := by
    intro y
    unfold getModelName
    cases h : List.lookup (stripDate y) thermalModelMap with
    | none => left; rfl
    | some v => right; simpa using lookup_val_mem h
  have fixvals : ∀ v ∈ thermalModelMap.map Prod.snd, getModelName v = v := by decide
  refine ⟨?_, by decide, by decide, ?_⟩
  · intro x
    rcases key x with h | h
    · rw [h]; exact h
    · exact fixvals _ h
  · intro x h
    unfold getModelName
    rw [h]

/-- Witness for C3: a concrete identifier outside the table passes
through unchanged. -/
theorem getModelName_idem_table_witness : getModelName "some-model" = "some-model" :=
  getModelName_idem_table.2.2.2 "some-model" (by decide)

/-- Counterexample for C8: the thermal renderer and the HTML renderer
disagree on `"claude-haiku-4-5"` (the HTML table has an extra entry). -/
theorem modelName_renderers_differ :
    htmlGetModelName "claude-haiku-4-5" ≠ getModelName "claude-haiku-4-5" := by decide

/-- C8 (amended).  The two renderers' normalizations agree on every
identifier whose date-stripped form is not `"claude-haiku-4-5"`; on that
one key the HTML renderer returns `"Claude Haiku 4.5"` while the thermal
renderer passes the identifier through. -/
theorem modelName_renderers_agree (x : String)
    (h : stripDate x ≠ "claude-haiku-4-5") : htmlGetModelName x = getModelName x := by
  unfold htmlGetModelName getModelName
  have he : htmlModelMap = thermalModelMap ++ [("claude-haiku-4-5", "Claude Haiku 4.5")] := rfl
  rw [he, lookup_append]
  have hb : (stripDate x == "claude-haiku-4-5") = false := beq_eq_false_iff_ne.mpr h
  have hnone : List.lookup (stripDate x) [("claude-haiku-4-5", "Claude Haiku 4.5")] = none := by
    simp [List.lookup, hb]
  cases hl : List.lookup (stripDate x) thermalModelMap with
  | none => simp [hnone]
  | some v => simp

/-- Witness for C8 (amended): agreement at a concrete identifier. -/
theorem modelName_renderers_agree_witness :
    htmlGetModelName "claude-3-opus" = getModelName "claude-3-opus" :=
  modelName_renderers_agree "claude-3-opus" (by decide)

/-! ## C2 : two-column row formatting -/

/-- Counterexample for C2: at combined length exactly `WIDTH` (40) the
formatter takes the unpadded branch, so the line has 41 characters, not
40 — refuting "whenever len(left)+len(right) ≤ W the emitted line is
exactly W characters long" at its boundary case. -/
theorem leftRight_boundary_cex :
    "TOTAL".length + (String.mk (List.replicate 35 'x')).length ≤ WIDTH ∧
    (leftRightText "TOTAL" (String.mk (List.replicate 35 'x'))).length ≠ WIDTH := by decide

/-- C2 (amended).  With `gap = W - len(left) - len(right)`: when
`gap ≥ 1` (equivalently `len(left)+len(right) < W`) the emitted line is
`left`, then `gap` spaces, then `right`, and is exactly `W` characters
long; when `len(left)+len(right) ≥ W` the output is `left + " " + right`
with neither string truncated or wrapped. -/
theorem leftRight_spec (left right : String) :
    (left.length + right.length < WIDTH →
      leftRightText left right =
        left ++ spaces (WIDTH - (left.length + right.length)) ++ right ∧
      (leftRightText left right).length = WIDTH) ∧
    (WIDTH ≤ left.length + right.length →
      leftRightText left right = left ++ " " ++ right) := by
  constructor
  · intro h
    have hw : WIDTH = 40 := rfl
    have hgap : ¬ ((WIDTH : Int) - left.length - right.length < 1) := by
      rw [hw] at h
      simp only [hw]
      omega
    have hform : leftRightText left right =
        left ++ spaces (WIDTH - (left.length + right.length)) ++ right := by
      unfold leftRightText
      rw [if_neg hgap]
      have harg : ((WIDTH : Int) - left.length - right.length).toNat
          = WIDTH - (left.length + right.length) := by
        rw [hw] at h
        simp only [hw]
        omega
      rw [harg]
    refine ⟨hform, ?_⟩
    rw [hform, strLength_append, strLength_append, spaces_length]
    rw [hw] at h
    simp only [hw]
    omega
  · intro h
    unfold leftRightText
    rw [if_pos]
    have hw : WIDTH = 40 := rfl
    rw [hw] at h
    simp only [hw]
    omega

/-- Witness for C2 (amended): `("TOTAL", "$12.34")` fills exactly 40
characters. -/
theorem leftRight_spec_witness : (leftRightText "TOTAL" "$12.34").length = WIDTH :=
  ((leftRight_spec "TOTAL" "$12.34").1 (by decide)).2

/-! ## C9 / C10 : determinism and framing of the built buffer -/

/-- C9.  `buildReceipt` is deterministic: its output does not depend on
the ambient runtime environment (clock), only on the receipt content and
the optional share URL, and two runs agree byte for byte. -/
theorem buildReceipt_deterministic (w₁ w₂ : World) (d : ReceiptData) (u : Option String) :
    buildReceiptInWorld w₁ d u = buildReceiptInWorld w₂ d u ∧
    buildReceiptInWorld w₁ d u = buildReceipt d u :=
  ⟨rfl, rfl⟩

theorem opsBytes_append (a b : List EscOp) : opsBytes (a ++ b) = opsBytes a ++ opsBytes b := by
  induction a with
  | nil => rfl
  | cons o t ih => simp [opsBytes, ih]

/-- C10.  Every built buffer is non-empty, begins with the initialize
sequence `ESC @` (0x1b 0x40), and ends with the partial-cut sequence
`GS V 66 3` (0x1d 0x56 0x42 0x03). -/
theorem buildReceipt_init_cut (d : ReceiptData) (u : Option String) :
    buildReceipt d u ≠ [] ∧
    (∃ rest, buildReceipt d u = 0x1b :: 0x40 :: rest) ∧
    (∃ front, buildReceipt d u = front ++ [0x1d, 0x56, 0x42, 0x03]) := by
  have hsplit : receiptOps d u =
      [EscOp.init] ++
      (([.leftMargin 12, .logo, .lineOp "", .alignOp 1,
         .lineOp ("Location: " ++ d.location),
         .lineOp ("Session: " ++ d.transcriptData.sessionSlug),
         .lineOp (formatDateTime d.transcriptData.endTime d.config.timezone),
         .lineOp "", .alignOp 0, .drawLine '='] ++
        modelSegment d.sessionData.modelBreakdowns ++
        [.bold true,
         .leftRight "TOTAL" (formatCurrency d.sessionData.totalCost),
         .bold false, .drawLine '=', .lineOp "", .alignOp 0,
         .lineOp ("CASHIER: " ++ getMainModel d.sessionData),
         .lineOp "", .alignOp 1, .lineOp "Thank you for building!",
         .lineOp "", .alignOp 1, .lineOp "Print your own Claude receipts:",
         .qrCode REPO_URL 4, .lineOp "github.com/chrishutchinson",
         .lineOp "/claude-receipts", .lineOp ""]) ++
       [EscOp.partialCut]) := by
    simp [receiptOps]
  refine ⟨?_, ⟨?_, ?_⟩, ⟨?_, ?_⟩⟩
  case refine_2 =>
    exact opsBytes ((([.leftMargin 12, .logo, .lineOp "", .alignOp 1,
      .lineOp ("Location: " ++ d.location),
      .lineOp ("Session: " ++ d.transcriptData.sessionSlug),
      .lineOp (formatDateTime d.transcriptData.endTime d.config.timezone),
      .lineOp "", .alignOp 0, .drawLine '='] ++
      modelSegment d.sessionData.modelBreakdowns ++
      [.bold true,
       .leftRight "TOTAL" (formatCurrency d.sessionData.totalCost),
       .bold false, .drawLine '=', .lineOp "", .alignOp 0,
       .lineOp ("CASHIER: " ++ getMainModel d.sessionData),
       .lineOp "", .alignOp 1, .lineOp "Thank you for building!",
       .lineOp "", .alignOp 1, .lineOp "Print your own Claude receipts:",
       .qrCode REPO_URL 4, .lineOp "github.com/chrishutchinson",
       .lineOp "/claude-receipts", .lineOp ""]) ++
      [EscOp.partialCut]))
  case refine_3 =>
    rw [buildReceipt, hsplit, opsBytes_append]
    rfl
  case refine_4 =>
    exact opsBytes ([EscOp.init] ++
      ([.leftMargin 12, .logo, .lineOp "", .alignOp 1,
        .lineOp ("Location: " ++ d.location),
        .lineOp ("Session: " ++ d.transcriptData.sessionSlug),
        .lineOp (formatDateTime d.transcriptData.endTime d.config.timezone),
        .lineOp "", .alignOp 0, .drawLine '='] ++
       modelSegment d.sessionData.modelBreakdowns ++
       [.bold true,
        .leftRight "TOTAL" (formatCurrency d.sessionData.totalCost),
        .bold false, .drawLine '=', .lineOp "", .alignOp 0,
        .lineOp ("CASHIER: " ++ getMainModel d.sessionData),
        .lineOp "", .alignOp 1, .lineOp "Thank you for building!",
        .lineOp "", .alignOp 1, .lineOp "Print your own Claude receipts:",
        .qrCode REPO_URL 4, .lineOp "github.com/chrishutchinson",
        .lineOp "/claude-receipts", .lineOp ""]))
  case refine_5 =>
    rw [buildReceipt, hsplit]
    rw [show ([EscOp.init] ++
      (([.leftMargin 12, .logo, .lineOp "", .alignOp 1,
         .lineOp ("Location: " ++ d.location),
         .lineOp ("Session: " ++ d.transcriptData.sessionSlug),
         .lineOp (formatDateTime d.transcriptData.endTime d.config.timezone),
         .lineOp "", .alignOp 0, .drawLine '='] ++
        modelSegment d.sessionData.modelBreakdowns ++
        [.bold true,
         .leftRight "TOTAL" (formatCurrency d.sessionData.totalCost),
         .bold false, .drawLine '=', .lineOp "", .alignOp 0,
         .lineOp ("CASHIER: " ++ getMainModel d.sessionData),
         .lineOp "", .alignOp 1, .lineOp "Thank you for building!",
         .lineOp "", .alignOp 1, .lineOp "Print your own Claude receipts:",
         .qrCode REPO_URL 4, .lineOp "github.com/chrishutchinson",
         .lineOp "/claude-receipts", .lineOp ""]) ++
       [EscOp.partialCut]) : List EscOp) =
      ([EscOp.init] ++
       ([.leftMargin 12, .logo, .lineOp "", .alignOp 1,
         .lineOp ("Location: " ++ d.location),
         .lineOp ("Session: " ++ d.transcriptData.sessionSlug),
         .lineOp (formatDateTime d.transcriptData.endTime d.config.timezone),
         .lineOp "", .alignOp 0, .drawLine '='] ++
        modelSegment d.sessionData.modelBreakdowns ++
        [.bold true,
         .leftRight "TOTAL" (formatCurrency d.sessionData.totalCost),
         .bold false, .drawLine '=', .lineOp "", .alignOp 0,
         .lineOp ("CASHIER: " ++ getMainModel d.sessionData),
         .lineOp "", .alignOp 1, .lineOp "Thank you for building!",
         .lineOp "", .alignOp 1, .lineOp "Print your own Claude receipts:",
         .qrCode REPO_URL 4, .lineOp "github.com/chrishutchinson",
         .lineOp "/claude-receipts", .lineOp ""])) ++
      [EscOp.partialCut] from by simp]
    rw [opsBytes_append]
    rfl
  case refine_1 =>
    rw [buildReceipt, hsplit, opsBytes_append]
    intro hf
    simp [opsBytes, bytesOfOp] at hf

/-! ## C4 : transport classification and TCP address parsing -/

/-- C4.  Exactly one transport is selected by the shape of the
destination: a `tcp://` prefix goes to TCP with the parsed host and port,
`"usb"` or a `usb:` prefix goes to USB, anything else to the spooler with
the whole string as destination; `tcp://10.0.0.5:9100` parses to host
`10.0.0.5` port `9100`, `tcp://printer.local` to default port `9100`, and
in general a colon-free, slash-free host with no port gets port 9100. -/
theorem printDispatch_classified :
    (∀ s, strStarts "tcp://" s = true → printDispatch s = .tcp (tcpHostOf s) (tcpPortOf s)) ∧
    (∀ s, strStarts "tcp://" s = false → (s = "usb" ∨ strStarts "usb:" s = true) →
       printDispatch s = .usb s) ∧
    (∀ s, strStarts "tcp://" s = false → s ≠ "usb" → strStarts "usb:" s = false →
       printDispatch s = .cups s) ∧
    printDispatch "tcp://10.0.0.5:9100" = .tcp "10.0.0.5" 9100 ∧
    printDispatch "tcp://printer.local" = .tcp "printer.local" 9100 ∧
    (∀ host : String, (∀ c ∈ host.data, c ≠ ':' ∧ c ≠ '/') →
      tcpHostOf ("tcp://" ++ host) = host ∧ tcpPortOf ("tcp://" ++ host) = 9100) := by
  refine ⟨?_, ?_, ?_, by decide, by decide, ?_⟩
  · intro s hs
    simp [printDispatch, hs]
  · intro s hs h2
    rcases h2 with rfl | h2
    · simp [printDispatch, hs]
    · simp [printDispatch, hs, h2]
  · intro s hs hne hu
    have hb : (s == "usb") = false := beq_eq_false_iff_ne.mpr hne
    simp [printDispatch, hs, hb, hu]
  · intro host h
    have hd : ("tcp://" ++ host).data.drop 6 = host.data := by
      rw [strData_append]
      rfl
    have hauth : tcpAuth ("tcp://" ++ host) = host.data := by
      unfold tcpAuth
      rw [hd]
      refine List.takeWhile_eq_self_iff.mpr ?_
      intro c hc
      simpa using (h c hc).2
    constructor
    · unfold tcpHostOf
      rw [hauth]
      have : host.data.takeWhile (fun c => decide (c ≠ ':')) = host.data := by
        refine List.takeWhile_eq_self_iff.mpr ?_
        intro c hc
        simpa using (h c hc).1
      rw [this]
    · unfold tcpPortOf
      rw [hauth]
      have : host.data.dropWhile (fun c => decide (c ≠ ':')) = [] := by
        refine List.dropWhile_eq_nil_iff.mpr ?_
        intro c hc
        simpa using (h c hc).1
      rw [this]
      rfl

/-- Witness for C4: the default-port clause at a concrete host. -/
theorem printDispatch_classified_witness :
    tcpHostOf ("tcp://" ++ "myprinter.local") = "myprinter.local" ∧
    tcpPortOf ("tcp://" ++ "myprinter.local") = 9100 :=
  printDispatch_classified.2.2.2.2.2 "myprinter.local" (by decide)

/-! ## Helper lemmas: splitting and USB device search -/

theorem splitOnChar_no_sep (c : Char) (l : List Char) (h : ∀ x ∈ l, x ≠ c) :
    splitOnChar c l = [l] := by
  induction l with
  | nil => rfl
  | cons x t ih =>
    have hx : (x == c) = false := beq_eq_false_iff_ne.mpr (h x (by simp))
    have ht := ih (fun y hy => h y (by simp [hy]))
    simp [splitOnChar, hx, ht]

theorem splitOnChar_sep (c : Char) (a b : List Char) (ha : ∀ x ∈ a, x ≠ c) :
    splitOnChar c (a ++ c :: b) = a :: splitOnChar c b := by
  induction a with
  | nil => simp [splitOnChar]
  | cons x t ih =>
    have hx : (x == c) = false := beq_eq_false_iff_ne.mpr (ha x (by simp))
    have ht := ih (fun y hy => ha y (by simp [hy]))
    simp [splitOnChar, hx, ht]

theorem usbFind_none_vid (pid : Option Nat) (devs : List (Nat × Nat)) :
    usbFindByIds none pid devs = none := by
  simp [usbFindByIds]

theorem devLine_data (d : Nat × Nat) :
    (devLine d).data =
      [' ', ' '] ++ ((natToHex d.1).data ++ ([':'] ++ (natToHex d.2).data)) := by
  simp only [devLine, strData_append, List.append_assoc]

/-! ## C6 : malformed hex in `usb:VID:PID` -/

/-- Counterexample for C6: for `usb:zz:zz` the parsed ids are `NaN`
(modelled `none`), not the default Epson pair — the code does not fall
back to defaults on malformed hex. -/
theorem usbMalformedHex_cex :
    usbIdsOf "usb:zz:zz" ≠ (some EPSON_VENDOR_ID, some TM_T88V_PRODUCT_ID) ∧
    usbIdsOf "usb:zz:zz" = (none, none) := by decide

/-- C6 (amended).  For a destination `usb:<tok1>:<tok2>` (tokens
colon-free) the transport uses `parseInt(tok, 16)` of each token; a token
with no parsable hex digits yields `NaN` (not the Epson defaults), `NaN`
matches no device, and the call fails with a device-not-found error whose
text names `NaN`; valid hex tokens override the defaults with exactly
those IDs. -/
theorem usbMalformedHex (s₁ s₂ : String)
    (h₁ : ∀ x ∈ s₁.data, x ≠ ':') (h₂ : ∀ x ∈ s₂.data, x ≠ ':') :
    usbIdsOf ("usb:" ++ s₁ ++ ":" ++ s₂) = (parseHexJs s₁, parseHexJs s₂) ∧
    (parseHexJs s₁ = none →
      ∀ devs, usbLocate ("usb:" ++ s₁ ++ ":" ++ s₂) devs =
          .error (usbNotFoundMsg none (parseHexJs s₂) devs) ∧
        strContains (usbNotFoundMsg none (parseHexJs s₂) devs) "NaN" = true) := by
  have hdata : ("usb:" ++ s₁ ++ ":" ++ s₂).data
      = 'u' :: 's' :: 'b' :: ':' :: (s₁.data ++ ':' :: s₂.data) := by
    rw [strData_append, strData_append, strData_append]
    rw [show "usb:".data = ['u', 's', 'b', ':'] from by decide,
      show ":".data = [':'] from by decide]
    simp
  have hstart : strStarts "usb:" ("usb:" ++ s₁ ++ ":" ++ s₂) = true := by
    rw [strStarts, hdata, show "usb:".data = ['u', 's', 'b', ':'] from by decide]
    simp [hasPre]
  have hsplit : splitOnChar ':' ('u' :: 's' :: 'b' :: ':' :: (s₁.data ++ ':' :: s₂.data))
      = [['u', 's', 'b'], s₁.data, s₂.data] := by
    rw [show ('u' :: 's' :: 'b' :: ':' :: (s₁.data ++ ':' :: s₂.data))
        = ['u', 's', 'b'] ++ ':' :: (s₁.data ++ ':' :: s₂.data) from rfl]
    rw [splitOnChar_sep _ _ _ (by decide), splitOnChar_sep _ _ _ h₁,
      splitOnChar_no_sep _ _ h₂]
  have hids : usbIdsOf ("usb:" ++ s₁ ++ ":" ++ s₂) = (parseHexJs s₁, parseHexJs s₂) := by
    unfold usbIdsOf
    rw [hstart, hdata, hsplit]
    simp
  refine ⟨hids, ?_⟩
  intro hn devs
  have hloc : usbLocate ("usb:" ++ s₁ ++ ":" ++ s₂) devs =
      .error (usbNotFoundMsg none (parseHexJs s₂) devs) := by
    unfold usbLocate
    rw [hids]
    simp [hn, usbFind_none_vid]
  refine ⟨hloc, ?_⟩
  rw [strContains]
  simp only [usbNotFoundMsg, toHexJs, strData_append, List.append_assoc]
  apply subList_append_left
  exact subList_of_hasPre (hasPre_self _ _)

/-- Witness for C6 (amended): concrete malformed first token. -/
theorem usbMalformedHex_witness :
    usbIdsOf ("usb:" ++ "zz" ++ ":" ++ "0202") = (parseHexJs "zz", parseHexJs "0202") :=
  (usbMalformedHex "zz" "0202" (by decide) (by decide)).1

/-! ## C7 : DeviceNotFound diagnostics -/

/-- C7.  The `DeviceNotFound` error text names the requested vendor:product
pair; it states `(none)` when the device registry is empty; it includes the
first visible device's vendor:product pair when the registry is non-empty;
and it lists at most the first 10 visible devices.  (The enumeration is a
total function of the registry — it cannot itself throw.) -/
theorem usbNotFound_diag (vid pid : Option Nat) (devs : List (Nat × Nat)) :
    strContains (usbNotFoundMsg vid pid devs) (toHexJs vid ++ ":" ++ toHexJs pid) = true ∧
    (devs = [] → strContains (usbNotFoundMsg vid pid devs) "(none)" = true) ∧
    (∀ d ds, devs = d :: ds →
      strContains (usbNotFoundMsg vid pid devs)
        (natToHex d.1 ++ ":" ++ natToHex d.2) = true) ∧
    ((devs.take 10).map devLine).length ≤ 10 := by
  refine ⟨?_, ?_, ?_, ?_⟩
  · rw [strContains]
    simp only [usbNotFoundMsg, strData_append, List.append_assoc]
    apply subList_append_left
    apply subList_of_hasPre
    rw [hasPre_same_append, hasPre_same_append]
    exact hasPre_self _ _
  · intro hdev
    subst hdev
    rw [strContains]
    simp only [usbNotFoundMsg, List.take_nil, List.map_nil, joinNL,
      strData_append, List.append_assoc]
    rw [if_pos trivial]
    apply subList_append_left
    apply subList_append_left
    apply subList_append_left
    apply subList_append_left
    apply subList_append_left
    apply subList_append_left
    decide
  · intro d ds hdev
    subst hdev
    rw [strContains]
    have htake : (d :: ds).take 10 = d :: ds.take 9 := rfl
    cases hm : (ds.take 9).map devLine with
    | nil =>
      have hne : devLine d ≠ "" := strNe_empty _ (by rw [devLine_data]; simp)
      simp only [usbNotFoundMsg, htake, List.map_cons, hm, joinNL,
        strData_append, List.append_assoc]
      rw [if_neg hne]
      rw [devLine_data]
      apply subList_append_left
      apply subList_append_left
      apply subList_append_left
      apply subList_append_left
      apply subList_append_left
      apply subList_append_left
      apply subList_append_left
      apply subList_of_hasPre
      rw [hasPre_same_append, hasPre_same_append]
      exact hasPre_refl _
    | cons y ys =>
      have hne : devLine d ++ "\n" ++ joinNL (y :: ys) ≠ "" :=
        strNe_empty _ (by
          simp only [strData_append, List.append_assoc]
          rw [devLine_data]
          simp)
      simp only [usbNotFoundMsg, htake, List.map_cons, hm, joinNL,
        strData_append, List.append_assoc]
      rw [if_neg hne]
      simp only [strData_append, List.append_assoc]
      rw [devLine_data]
      simp only [List.append_assoc]
      apply subList_append_left
      apply subList_append_left
      apply subList_append_left
      apply subList_append_left
      apply subList_append_left
      apply subList_append_left
      apply subList_append_left
      apply subList_of_hasPre
      rw [hasPre_same_append, hasPre_same_append]
      exact hasPre_self _ _
  · simp only [List.length_map, List.length_take]
    omega

/-- Witness for C7: the empty-registry clause at concrete ids. -/
theorem usbNotFound_diag_witness :
    strContains (usbNotFoundMsg (some 0x4b8) (some 0x202) []) "(none)" = true :=
  (usbNotFound_diag (some 0x4b8) (some 0x202) []).2.1 rfl

/-! ## C5 : spooler transport cleanup and failure reporting -/

/-- Counterexample for C5: when the destination-status check fails the
call throws before touching the filesystem — no temporary file is created
(and hence none deleted), contrary to the claim's "the temporary spool
file is created and then deleted". -/
theorem sendViaCups_statusFail_cex :
    (sendViaCups ⟨0⟩ ⟨false, some "printer Foo is idle", true⟩ "Receipt").2 = [] ∧
    ¬ ∃ n, FsEv.createTmp n ∈
        (sendViaCups ⟨0⟩ ⟨false, some "printer Foo is idle", true⟩ "Receipt").2 := by
  refine ⟨rfl, ?_⟩
  rintro ⟨n, hn⟩
  rw [show (sendViaCups ⟨0⟩ ⟨false, some "printer Foo is idle", true⟩ "Receipt").2
      = [] from rfl] at hn
  exact List.not_mem_nil _ hn

/-- C5 (amended).  When the destination-status check fails, no temporary
file is created or deleted, the call fails with an error naming the
requested destination, and the error includes the alternative-destination
list when the listing query succeeds with a non-empty parse; in every
execution that creates the temporary file, the file is also deleted,
regardless of submission outcome. -/
theorem sendViaCups_spec (w : World) (env : CupsEnv) (name : String) :
    (env.statusOk = false →
      (sendViaCups w env name).2 = [] ∧
      ∃ msg, (sendViaCups w env name).1 = .error msg ∧
        strContains msg name = true ∧
        (∀ out, env.listOut = some out → parsePrinterNames out ≠ [] →
          strContains msg "Available printers: " = true)) ∧
    (∀ n, FsEv.createTmp n ∈ (sendViaCups w env name).2 →
      FsEv.deleteTmp n ∈ (sendViaCups w env name).2) := by
  constructor
  · intro hs
    simp only [sendViaCups, hs, Bool.false_eq_true, if_false]
    refine ⟨trivial, _, rfl, ?_, ?_⟩
    · rw [strContains]
      simp only [strData_append, List.append_assoc]
      apply subList_append_left
      apply subList_of_hasPre
      exact hasPre_self _ _
    · intro out hout hne
      simp only [hout]
      have hlen : 0 < (parsePrinterNames out).length := List.length_pos.mpr hne
      rw [if_pos hlen]
      have hne2 : ("\nAvailable printers: " ++ joinComma (parsePrinterNames out)) ≠ "" := by
        apply strNe_empty
        rw [strData_append]
        simp [List.append_eq_nil]
      rw [if_neg hne2]
      rw [show ("\nAvailable printers: " : String) = "\n" ++ "Available printers: " from by decide]
      rw [strContains]
      simp only [strData_append, List.append_assoc]
      apply subList_append_left
      apply subList_append_left
      apply subList_append_left
      apply subList_append_left
      apply subList_of_hasPre
      exact hasPre_self _ _
  · intro n hmem
    cases hso : env.statusOk with
    | false =>
      rw [show (sendViaCups w env name).2 = [] from by simp [sendViaCups, hso]] at hmem
      exact absurd hmem (List.not_mem_nil _)
    | true =>
      simp only [sendViaCups, hso, if_true] at hmem ⊢
      simp only [List.mem_cons, List.not_mem_nil, or_false] at hmem
      rcases hmem with hmem | hmem | hmem
      · rw [FsEv.createTmp.injEq] at hmem
        subst hmem
        simp
      · exact absurd hmem (by simp)
      · exact absurd hmem (by simp)

/-- Witness for C5 (amended): on a failed status check with no listing,
the filesystem trace is empty. -/
theorem sendViaCups_spec_witness :
    (sendViaCups ⟨7⟩ ⟨false, none, true⟩ "Foo").2 = [] :=
  ((sendViaCups_spec ⟨7⟩ ⟨false, none, true⟩ "Foo").1 rfl).1

/-! ## Helper lemmas: row extraction from builder-call sequences -/

theorem twoColRows_append (a b : List EscOp) :
    twoColRows (a ++ b) = twoColRows a ++ twoColRows b := by
  induction a with
  | nil => rfl
  | cons op t ih => cases op <;> simp [twoColRows, ih]

theorem boldHeaderRows_cons_ne (op : EscOp) (t : List EscOp) (h : op ≠ EscOp.bold true) :
    boldHeaderRows (op :: t) = boldHeaderRows t := by
  cases op
  case bold b =>
    cases b
    case false => rfl
    case true => exact absurd rfl h
  all_goals rfl

theorem boldHeaderRows_append_nb (a b : List EscOp) (h : ∀ op ∈ a, op ≠ EscOp.bold true) :
    boldHeaderRows (a ++ b) = boldHeaderRows b := by
  induction a with
  | nil => rfl
  | cons op t ih =>
    rw [List.cons_append, boldHeaderRows_cons_ne op _ (h op (by simp))]
    exact ih (fun o ho => h o (by simp [ho]))

theorem boldHeaderRows_bold_lr (l r : String) (t : List EscOp) :
    boldHeaderRows (EscOp.bold true :: EscOp.leftRight l r :: t)
      = (l, r) :: boldHeaderRows t := rfl

theorem cacheWriteOps_rows (m : ModelBreakdown) :
    twoColRows (cacheWriteOps m)
      = (if 0 < m.cacheCreationTokens.getD 0 then
          [("  Cache write", formatNumber (m.cacheCreationTokens.getD 0))] else []) := by
  unfold cacheWriteOps
  cases m.cacheCreationTokens with
  | none => rfl
  | some n =>
    by_cases h : 0 < n
    · simp [h, twoColRows]
    · simp [h, twoColRows]

theorem cacheReadOps_rows (m : ModelBreakdown) :
    twoColRows (cacheReadOps m)
      = (if 0 < m.cacheReadTokens.getD 0 then
          [("  Cache read", formatNumber (m.cacheReadTokens.getD 0))] else []) := by
  unfold cacheReadOps
  cases m.cacheReadTokens with
  | none => rfl
  | some n =>
    by_cases h : 0 < n
    · simp [h, twoColRows]
    · simp [h, twoColRows]

theorem cacheWriteOps_nb (m : ModelBreakdown) :
    ∀ op ∈ cacheWriteOps m, op ≠ EscOp.bold true := by
  intro op
  unfold cacheWriteOps
  cases m.cacheCreationTokens with
  | none => intro hop; exact absurd hop (List.not_mem_nil _)
  | some n =>
    by_cases h : 0 < n
    · intro hop
      simp only [h, if_true, List.mem_cons, List.not_mem_nil, or_false] at hop
      subst hop
      simp
    · intro hop
      simp [h] at hop

theorem cacheReadOps_nb (m : ModelBreakdown) :
    ∀ op ∈ cacheReadOps m, op ≠ EscOp.bold true := by
  intro op
  unfold cacheReadOps
  cases m.cacheReadTokens with
  | none => intro hop; exact absurd hop (List.not_mem_nil _)
  | some n =>
    by_cases h : 0 < n
    · intro hop
      simp only [h, if_true, List.mem_cons, List.not_mem_nil, or_false] at hop
      subst hop
      simp
    · intro hop
      simp [h] at hop

theorem recOps_twoCol (m : ModelBreakdown) : twoColRows (recOps m) = specRecordRows m := by
  unfold recOps specRecordRows
  rw [twoColRows_append, twoColRows_append, twoColRows_append]
  rw [cacheWriteOps_rows, cacheReadOps_rows]
  simp [twoColRows]

theorem recOps_bold (m : ModelBreakdown) (rest : List EscOp) :
    boldHeaderRows (recOps m ++ rest)
      = (getModelName m.modelName, formatCurrency m.cost) :: boldHeaderRows rest := by
  unfold recOps
  simp only [List.append_assoc, List.cons_append, List.nil_append]
  rw [boldHeaderRows_bold_lr]
  congr 1
  rw [show EscOp.bold false :: EscOp.drawLine '-'
        :: EscOp.leftRight "  Input tokens" (formatNumber m.inputTokens)
        :: EscOp.leftRight "  Output tokens" (formatNumber m.outputTokens)
        :: (cacheWriteOps m ++ (cacheReadOps m ++ (EscOp.lineOp "" :: EscOp.drawLine '=' :: rest)))
      = [EscOp.bold false, EscOp.drawLine '-',
         EscOp.leftRight "  Input tokens" (formatNumber m.inputTokens),
         EscOp.leftRight "  Output tokens" (formatNumber m.outputTokens)]
        ++ (cacheWriteOps m ++ (cacheReadOps m ++
            ([EscOp.lineOp "", EscOp.drawLine '='] ++ rest))) from rfl]
  rw [boldHeaderRows_append_nb _ _ (by
    intro op hop
    simp only [List.mem_cons, List.not_mem_nil, or_false] at hop
    rcases hop with rfl | rfl | rfl | rfl <;> simp)]
  rw [boldHeaderRows_append_nb _ _ (cacheWriteOps_nb m)]
  rw [boldHeaderRows_append_nb _ _ (cacheReadOps_nb m)]
  rw [boldHeaderRows_append_nb _ _ (by
    intro op hop
    simp only [List.mem_cons, List.not_mem_nil, or_false] at hop
    rcases hop with rfl | rfl <;> simp)]

theorem rows_flatten (l : List ModelBreakdown) :
    twoColRows ((l.map recOps).flatten) = (l.map specRecordRows).flatten := by
  induction l with
  | nil => rfl
  | cons m t ih =>
    simp only [List.map_cons, List.flatten_cons, twoColRows_append, recOps_twoCol, ih]

theorem bold_flatten (l : List ModelBreakdown) (rest : List EscOp) :
    boldHeaderRows ((l.map recOps).flatten ++ rest)
      = l.map (fun m => (getModelName m.modelName, formatCurrency m.cost))
        ++ boldHeaderRows rest := by
  induction l with
  | nil => simp
  | cons m t ih =>
    simp only [List.map_cons, List.flatten_cons, List.append_assoc]
    rw [recOps_bold, ih]
    simp

theorem modelSegment_twoCol (o : Option (List ModelBreakdown)) :
    twoColRows (modelSegment o) = ((o.getD []).map specRecordRows).flatten := by
  cases o with
  | none => rfl
  | some l =>
    cases l with
    | nil => rfl
    | cons m t =>
      simp only [modelSegment, Option.getD]
      rw [if_pos (by simp)]
      exact rows_flatten (m :: t)

theorem modelSegment_bold (o : Option (List ModelBreakdown)) (rest : List EscOp) :
    boldHeaderRows (modelSegment o ++ rest)
      = (o.getD []).map (fun m => (getModelName m.modelName, formatCurrency m.cost))
        ++ boldHeaderRows rest := by
  cases o with
  | none => simp [modelSegment]
  | some l =>
    cases l with
    | nil => simp [modelSegment]
    | cons m t =>
      simp only [modelSegment, Option.getD]
      rw [if_pos (by simp)]
      exact bold_flatten (m :: t) rest

/-! ## C1 : per-record rows of the built receipt -/

/-- C1.  For every receipt, the two-column rows of the built command
sequence are exactly, in order: for each model record its bold header row
(normalized display name paired with the formatted cost) followed by one
row per non-zero token category (a zero or absent cache-write/cache-read
count producing no row), and then the single TOTAL row; the bold header
rows are exactly the N model headers plus the TOTAL row.  In particular,
for the fixture record (input=100, output=50, cacheRead=0, cost=1.23) the
decoded buffer contains an "Input tokens" row with "100", an
"Output tokens" row with "50", no "Cache read" row, and a TOTAL row
containing "$1.23". -/
theorem buildReceipt_rows (d : ReceiptData) (u : Option String) :
    twoColRows (receiptOps d u)
      = ((d.sessionData.modelBreakdowns.getD []).map specRecordRows).flatten
        ++ [("TOTAL", formatCurrency d.sessionData.totalCost)] ∧
    boldHeaderRows (receiptOps d u)
      = (d.sessionData.modelBreakdowns.getD []).map
          (fun m => (getModelName m.modelName, formatCurrency m.cost))
        ++ [("TOTAL", formatCurrency d.sessionData.totalCost)] ∧
    subList (strBytes (leftRightText "  Input tokens" (formatNumber 100)))
      (buildReceipt exReceipt none) = true ∧
    subList (strBytes (leftRightText "  Output tokens" (formatNumber 50)))
      (buildReceipt exReceipt none) = true ∧
    subList (strBytes "Cache read") (buildReceipt exReceipt none) = false ∧
    subList (strBytes (leftRightText "TOTAL" "$1.23"))
      (buildReceipt exReceipt none) = true := by
  refine ⟨?_, ?_, by decide, by decide, by decide, by decide⟩
  · simp only [receiptOps]
    rw [twoColRows_append, twoColRows_append, modelSegment_twoCol]
    simp [twoColRows]
  · simp only [receiptOps]
    rw [List.append_assoc]
    rw [boldHeaderRows_append_nb _ _ (by
      intro op hop
      simp only [List.mem_cons, List.not_mem_nil, or_false] at hop
      rcases hop with rfl | rfl | rfl | rfl | rfl | rfl | rfl | rfl | rfl | rfl | rfl <;> simp)]
    rw [modelSegment_bold]
    rfl

end ClaudeReceipts


